import Mathlib

/-!
# Verification of the `prompter` question-answering protocol

A shallow embedding of `prompt.go` (package `prompter`): a `Question` holds a
default value, an optional flag and an ordered list of validators, and
resolves one prompt to a final value through a retry loop over a buffered
line reader, with defaulting, optionality, validation and a cancellation
token.

Strings are modelled as `List Char` (`Str`).  The input stream is the
remaining bytes of the buffered reader plus an optional terminal I/O error
(a plain exhausted stream yields EOF, as `bytes.Buffer` does).  Go errors
are the inductive `GoErr`: the `ErrRequired` sentinel, the cancellation
error `context.Canceled`, an opaque reader I/O error, and ordinary
`fmt.Errorf`-style errors (the kind validators produce).

Go's goroutine-per-read exists so the driving path can race the read
against cancellation; the deterministic paths — the token already set
before the read starts (checked before the goroutine is launched), or the
read completing — are what the embedding models, as sequential calls.
The `goto retry` loops of `Ask` and `Password` are unbounded; they are
embedded with a fuel parameter, `none` meaning the loop has not terminated
within the given fuel.

The process state `PState` carries one ghost field, `valCalls`, recording
every argument a validator is applied to; it never influences control flow
and exists to state invariants about which inputs reach validators.
-/

/-- Strings as character lists, so that every operation reduces in the
kernel. -/
abbrev Str := List Char

/-- Go errors, as the resolution loop can observe them:
`required` is the `ErrRequired` sentinel, `cancelled` is `context.Canceled`
(the cancellation token's error), `ioErr` is an opaque non-EOF error from
the underlying reader, and `custom` is an ordinary `fmt.Errorf`-style
error carrying only its message (what validators return). -/
inductive GoErr where
  | required
  | cancelled
  | ioErr (msg : Str)
  | custom (msg : Str)
deriving DecidableEq

/-- `err.Error()`: the message printed when the error is written to the
output sink (`fmt.Fprintln(p.writer, err)`). -/
def GoErr.message : GoErr → Str
  | .required => "prompter: input is required".data
  | .cancelled => "context canceled".data
  | .ioErr m => m
  | .custom m => m

/-- The error taxonomy surfaced to callers: `RequiredInputMissing`,
`Cancelled`, or an opaque stream I/O error.  A `custom` error (the kind a
validator produces) is not of this shape. -/
def GoErr.inErrorTaxonomy (e : GoErr) : Prop :=
  e = GoErr.required ∨ e = GoErr.cancelled ∨ ∃ m, e = GoErr.ioErr m

/-- The buffered input reader: the bytes not yet consumed, and the error
the underlying reader reports once `data` is exhausted (`none` = plain
EOF, as for `bytes.Buffer`; `some m` = an opaque I/O error). -/
structure InStream where
  data : Str
  endErr : Option Str
deriving DecidableEq

/-- `bufio.Reader.ReadString('\n')` on the buffered bytes: the consumed
prefix up to and including the first newline, the remainder, and whether
the delimiter was found (if not, the whole buffer is consumed and the
read ends in EOF or the reader's error). -/
def splitLine : Str → Str × Str × Bool
  | [] => ([], [], false)
  | c :: cs =>
    if c = '\n' then ([c], cs, true)
    else
      let r := splitLine cs
      (c :: r.1, r.2.1, r.2.2)

/-- `strings.TrimRight(input, "\r\n")`: strip every trailing CR and LF. -/
def trimRightCRLF (s : Str) : Str :=
  (s.reverse.dropWhile (fun c => c = '\r' ∨ c = '\n')).reverse

/-- A configured question: default value (empty = no default), optional
flag, and the ordered validators.  The owning prompter's streams live in
`PState`; the `fd` is that of a non-terminal reader (the library's tests
wrap the input in `io.NopCloser`, so `getFd` yields `-1` and password
reads take the `scanLine` path). -/
structure Question where
  defaultTo : Str := []
  optional : Bool := false
  validators : List (Str → Option GoErr) := []

/-- The mutable world of one prompter: the input stream, the accumulated
output sink, the cancellation token's state, and the ghost log of every
argument passed to a validator. -/
structure PState where
  input : InStream
  output : Str := []
  cancelled : Bool := false
  valCalls : List Str := []
deriving DecidableEq

/-- `Question.scanLine`: read one line; on a non-EOF reader error report
it; at EOF substitute the default if set, else fail with `ErrRequired`
unless optional; otherwise trim trailing CR/LF and yield the line.
`Sum.inl` is the `inputCh` channel, `Sum.inr` the `errorCh` channel. -/
def Question.scanLine (q : Question) (s : InStream) : (Str ⊕ GoErr) × InStream :=
  let r := splitLine s.data
  let s' : InStream := { s with data := r.2.1 }
  if r.2.2 then
    (Sum.inl (trimRightCRLF r.1), s')
  else
    match s.endErr with
    | some m => (Sum.inr (GoErr.ioErr m), s')
    | none =>
      if q.defaultTo ≠ [] then (Sum.inl q.defaultTo, s')
      else if !q.optional then (Sum.inr GoErr.required, s')
      else (Sum.inl (trimRightCRLF r.1), s')

/-- `Question.readInput`: if the cancellation token is already set, return
its error at once without starting a read (the stream is untouched);
otherwise perform the read.  (The goroutine/`select` race only matters
when the token fires mid-read; its deterministic outcomes are the two
branches here.) -/
def Question.readInput (q : Question) (st : PState) : (Str ⊕ GoErr) × PState :=
  if st.cancelled then
    (Sum.inr GoErr.cancelled, st)
  else
    let r := q.scanLine st.input
    (r.1, { st with input := r.2 })

/-- The validator loop of `Ask`/`Password`: apply each validator in order
to `s`, stopping at the first failure.  Besides the first error (if any),
return the list of arguments passed (one entry per validator actually
invoked), feeding the ghost `valCalls` log. -/
def runValidatorsLog : List (Str → Option GoErr) → Str → Option GoErr × List Str
  | [], _ => (none, [])
  | v :: vs, s =>
    match v s with
    | some e => (some e, [s])
    | none =>
      let r := runValidatorsLog vs s
      (r.1, s :: r.2)

/-- `Question.Ask` with fuel bounding the `goto retry` loop (`none` =
still looping when fuel ran out).  Each attempt writes `prompt ++ " "`,
reads; a read error returns `("", err)`; empty input takes the default if
set, else retries unless optional; then the validators run, a failure
printing its message plus newline and retrying, success returning the
input with no error. -/
def Question.Ask : Nat → Question → Str → PState → Option (Str × Option GoErr × PState)
  | 0, _, _, _ => none
  | Nat.succ fuel, q, prompt, st₀ =>
    let st₁ := { st₀ with output := st₀.output ++ prompt ++ " ".data }
    match q.readInput st₁ with
    | (Sum.inr e, st₂) => some ([], some e, st₂)
    | (Sum.inl input, st₂) =>
      if input = [] ∧ q.defaultTo ≠ [] then
        some (q.defaultTo, none, st₂)
      else if input = [] ∧ !q.optional then
        Question.Ask fuel q prompt st₂
      else
        let r := runValidatorsLog q.validators input
        let st₃ := { st₂ with valCalls := st₂.valCalls ++ r.2 }
        match r.1 with
        | some e =>
          Question.Ask fuel q prompt
            { st₃ with output := st₃.output ++ e.message ++ "\n".data }
        | none => some (input, none, st₃)

/-- `Question.Password` with fuel; for a non-terminal reader
`scanPassword` delegates to `scanLine`, and a newline is printed after a
successful read (no terminal echo produced one); otherwise the logic of
`Ask`. -/
def Question.Password : Nat → Question → Str → PState → Option (Str × Option GoErr × PState)
  | 0, _, _, _ => none
  | Nat.succ fuel, q, prompt, st₀ =>
    let st₁ := { st₀ with output := st₀.output ++ prompt ++ " ".data }
    match q.readInput st₁ with
    | (Sum.inr e, st₂) => some ([], some e, st₂)
    | (Sum.inl pass, st₂) =>
      let st₃ := { st₂ with output := st₂.output ++ "\n".data }
      if pass = [] ∧ q.defaultTo ≠ [] then
        some (q.defaultTo, none, st₃)
      else if pass = [] ∧ !q.optional then
        Question.Password fuel q prompt st₃
      else
        let r := runValidatorsLog q.validators pass
        let st₄ := { st₃ with valCalls := st₃.valCalls ++ r.2 }
        match r.1 with
        | some e =>
          Question.Password fuel q prompt
            { st₄ with output := st₄.output ++ e.message ++ "\n".data }
        | none => some (pass, none, st₄)

/-- `strings.ToLower` for the ASCII tokens the confirm logic compares
against. -/
def toLowerStr (s : Str) : Str := s.map Char.toLower

/-- `isYes`: the accepted string, lower-cased, is `y`, `yes` or `true`. -/
def isYes (s : Str) : Bool :=
  let l := toLowerStr s
  l = "y".data ∨ l = "yes".data ∨ l = "true".data

/-- The validator `Confirm` attaches: accept the case-insensitive tokens
`y`, `yes`, `n`, `no`; reject anything else with a message quoting the
offending value (Go's `%q` on a plain string). -/
def confirmValidator (s : Str) : Option GoErr :=
  let l := toLowerStr s
  if l = "y".data ∨ l = "yes".data then none
  else if l = "n".data ∨ l = "no".data then none
  else some (GoErr.custom
    ("invalid value \"".data ++ s ++ "\", must enter yes or no".data))

/-- The mutation `q.validators = append(q.validators, fn)` performed by
`Confirm` on its receiver before delegating to `Ask`: the yes/no
validator is appended after every previously attached validator, and the
resulting `Question` is the receiver's state from then on. -/
def Question.confirmAppend (q : Question) : Question :=
  { q with validators := q.validators ++ [confirmValidator] }

/-- `Question.Confirm` with fuel: append the yes/no validator, delegate
to `Ask`; a non-nil error yields `false`, otherwise `isYes` of the
accepted input. -/
def Question.Confirm : Nat → Question → Str → PState → Option (Bool × Option GoErr × PState)
  | fuel, q, prompt, st =>
    match (q.confirmAppend).Ask fuel prompt st with
    | none => none
    | some (_, some e, st') => some (false, some e, st')
    | some (input, none, st') => some (isYes input, none, st')

/-- A plain-EOF stream holding the given bytes (`bytes.NewBufferString`,
as the library's tests build their readers). -/
def streamOf (s : String) : InStream := { data := s.data, endErr := none }

/-- A fresh prompter state over the given buffered input: empty output,
token not cancelled, empty ghost log. -/
def stateOf (s : String) : PState := { input := streamOf s }

/-- The length-at-least-3 validator of the spec's second scenario:
reject any string shorter than 3 characters with the message
`'<s>' is too short`. -/
def tooShortV (s : Str) : Option GoErr :=
  if s.length < 3 then some (GoErr.custom ("'".data ++ s ++ "' is too short".data))
  else none

/-- A validator that accepts every input; used to observe (through the
ghost `valCalls` log) which inputs the resolution loop hands to
validators. -/
def acceptAllV (_ : Str) : Option GoErr := none

/-! ## General lemmas about the validator loop -/

/-- Every argument the validator loop passes to a validator is the
resolved input itself. -/
theorem runValidatorsLog_calls (vs : List (Str → Option GoErr)) (s : Str) :
    ∀ x ∈ (runValidatorsLog vs s).2, x = s := by
  induction vs with
  | nil => intro x hx; simp [runValidatorsLog] at hx
  | cons v vs ih =>
    intro x hx
    rw [runValidatorsLog] at hx
    rcases h : v s with _ | e
    · rw [h] at hx
      simp only [List.mem_cons] at hx
      rcases hx with hx | hx
      · exact hx
      · exact ih x hx
    · rw [h] at hx
      simp only [List.mem_singleton] at hx
      exact hx

/-- The validator loop accepts exactly when every attached validator
accepts. -/
theorem runValidatorsLog_none_iff (vs : List (Str → Option GoErr)) (s : Str) :
    (runValidatorsLog vs s).1 = none ↔ ∀ v ∈ vs, v s = none := by
  induction vs with
  | nil => simp [runValidatorsLog]
  | cons v vs ih =>
    rw [runValidatorsLog]
    rcases h : v s with _ | e
    · simpa [h] using ih
    · simp [h]

/-- A failure of an earlier validator short-circuits everything appended
after it. -/
theorem runValidatorsLog_append_of_fail (vs ws : List (Str → Option GoErr)) (s : Str)
    (e : GoErr) (h : (runValidatorsLog vs s).1 = some e) :
    (runValidatorsLog (vs ++ ws) s).1 = some e := by
  induction vs with
  | nil => simp [runValidatorsLog] at h
  | cons v vs ih =>
    rw [runValidatorsLog] at h
    rw [List.cons_append, runValidatorsLog]
    rcases hv : v s with _ | e'
    · rw [hv] at h
      exact ih h
    · rw [hv] at h
      exact h

/-! ## C1 — the Mark/27 scenario -/

/-- C1: on the input stream `"Mark\n27\n"`, with a `Question` having no
default, not optional and no validators, the first `Ask` returns
`("Mark", nil)`, the second returns `("27", nil)`, and a third `Ask` on
the now-exhausted stream returns the empty string with `ErrRequired`. -/
theorem ask_mark_then_age_then_required :
    Question.Ask 1 {} "What is your name?".data (stateOf "Mark\n27\n")
        = some ("Mark".data, none,
            { input := streamOf "27\n",
              output := "What is your name? ".data }) ∧
    Question.Ask 1 {} "What is your age?".data
        { input := streamOf "27\n", output := "What is your name? ".data }
        = some ("27".data, none,
            { input := streamOf "",
              output := "What is your name? What is your age? ".data }) ∧
    Question.Ask 1 {} "What is your height?".data
        { input := streamOf "",
          output := "What is your name? What is your age? ".data }
        = some ([], some GoErr.required,
            { input := streamOf "",
              output :=
                "What is your name? What is your age? What is your height? ".data }) :=
  ⟨rfl, rfl, rfl⟩

/-! ## C2 — end-of-input with no default and not optional -/

/-- C2 counterexample: on an exhausted stream with no default and the
optional flag unset, `Ask` does **not** return to PROMPTING and retry: it
terminates on the very first attempt with `("", ErrRequired)` (the
output shows a single prompt and the result is `some`, not the `none`
an unbounded retry loop would leave at this fuel). -/
theorem ask_eof_terminates_cex :
    Question.Ask 2 {} "What is your height?".data (stateOf "")
      = some ([], some GoErr.required,
          { input := streamOf "", output := "What is your height? ".data }) :=
  rfl

/-- C2 (amended): whenever a read attempt on an `Ask` yields end-of-input
(exhausted stream, plain EOF) with no default configured and the optional
flag unset, `scanLine` reports `ErrRequired` and the call terminates at
once with `("", ErrRequired)` — end-of-input falls through to the
empty-input policy only when a default is set (substituted) or the
optional flag is set. -/
theorem ask_eof_required (fuel : Nat) (q : Question) (p : Str) (st : PState)
    (h1 : st.input.data = []) (h2 : st.input.endErr = none)
    (h3 : st.cancelled = false) (h4 : q.defaultTo = []) (h5 : q.optional = false) :
    Question.Ask (fuel + 1) q p st
      = some ([], some GoErr.required,
          { st with output := st.output ++ p ++ " ".data }) := by
  obtain ⟨⟨d, ee⟩, o, c, vc⟩ := st
  obtain ⟨qd, qo, qv⟩ := q
  simp only at h1 h2 h3 h4 h5
  subst h1 h2 h3 h4 h5
  rfl

/-- C2 witness: the amended theorem, applied on the exhausted stream with
a fresh default `Question`. -/
theorem ask_eof_required_witness :
    Question.Ask 1 {} "p".data (stateOf "")
      = some ([], some GoErr.required,
          { stateOf "" with
              output := (stateOf "").output ++ "p".data ++ " ".data }) :=
  ask_eof_required 0 {} "p".data (stateOf "") rfl rfl rfl rfl rfl

/-! ## Structural lemmas about the read and retry machinery -/

/-- Reading never touches the ghost validator-call log. -/
theorem readInput_valCalls (q : Question) (st : PState) :
    (q.readInput st).2.valCalls = st.valCalls := by
  rw [Question.readInput]; split <;> rfl

/-- An error reported by `scanLine` is the `ErrRequired` sentinel or the
underlying reader's opaque error; never a validator-style error. -/
theorem scanLine_err_taxonomy (q : Question) (s : InStream) (e : GoErr) (s' : InStream)
    (h : q.scanLine s = (Sum.inr e, s')) : e = .required ∨ ∃ m, e = .ioErr m := by
  rw [Question.scanLine] at h
  split at h
  · simp at h
  · split at h
    · simp only [Prod.mk.injEq] at h
      obtain ⟨h1, -⟩ := h
      injection h1 with h1
      exact Or.inr ⟨_, h1.symm⟩
    · split at h
      · simp at h
      · split at h
        · simp only [Prod.mk.injEq] at h
          obtain ⟨h1, -⟩ := h
          injection h1 with h1
          exact Or.inl h1.symm
        · simp at h

/-- An error reported by `readInput` is the cancellation error or one of
`scanLine`'s two kinds. -/
theorem readInput_err_taxonomy (q : Question) (st : PState) (e : GoErr) (st' : PState)
    (h : q.readInput st = (Sum.inr e, st')) :
    e = .required ∨ e = .cancelled ∨ ∃ m, e = .ioErr m := by
  rw [Question.readInput] at h
  split at h
  · simp only [Prod.mk.injEq] at h
    obtain ⟨h1, -⟩ := h
    injection h1 with h1
    exact Or.inr (Or.inl h1.symm)
  · simp only [Prod.mk.injEq] at h
    obtain ⟨h1, -⟩ := h
    have h2 : q.scanLine st.input = (Sum.inr e, (q.scanLine st.input).2) := by
      rw [← h1]
    rcases scanLine_err_taxonomy q st.input e _ h2 with h3 | h3
    · exact Or.inl h3
    · exact Or.inr (Or.inr h3)

/-- When `Ask` returns a non-nil error, the string result is empty and
the error is one of the three caller-visible kinds (the errors validators
produce are printed and retried, never returned). -/
theorem ask_err_shape (fuel : Nat) :
    ∀ (q : Question) (p : Str) (st : PState) (s : Str) (e : GoErr) (st' : PState),
      Question.Ask fuel q p st = some (s, some e, st') →
      s = [] ∧ (e = .required ∨ e = .cancelled ∨ ∃ m, e = .ioErr m) := by
  induction fuel with
  | zero =>
    intro q p st s e st' h
    rw [Question.Ask] at h
    exact absurd h (by simp)
  | succ n ih =>
    intro q p st s e st' h
    rw [Question.Ask] at h
    split at h
    next e₂ st₂ heq =>
      simp only [Option.some.injEq, Prod.mk.injEq] at h
      obtain ⟨hs, he, -⟩ := h
      refine ⟨hs.symm, ?_⟩
      rw [← he]
      exact readInput_err_taxonomy q _ e₂ st₂ heq
    next input st₂ heq =>
      split at h
      · simp at h
      · split at h
        · exact ih q p st₂ s e st' h
        · rcases hr : runValidatorsLog q.validators input with ⟨r1, r2⟩
          rw [hr] at h
          simp only at h
          cases r1 with
          | some e₃ => exact ih q p _ s e st' h
          | none => simp at h

/-- When `Password` returns a non-nil error, the string result is empty
and the error is one of the three caller-visible kinds. -/
theorem password_err_shape (fuel : Nat) :
    ∀ (q : Question) (p : Str) (st : PState) (s : Str) (e : GoErr) (st' : PState),
      Question.Password fuel q p st = some (s, some e, st') →
      s = [] ∧ (e = .required ∨ e = .cancelled ∨ ∃ m, e = .ioErr m) := by
  induction fuel with
  | zero =>
    intro q p st s e st' h
    rw [Question.Password] at h
    exact absurd h (by simp)
  | succ n ih =>
    intro q p st s e st' h
    rw [Question.Password] at h
    split at h
    next e₂ st₂ heq =>
      simp only [Option.some.injEq, Prod.mk.injEq] at h
      obtain ⟨hs, he, -⟩ := h
      refine ⟨hs.symm, ?_⟩
      rw [← he]
      exact readInput_err_taxonomy q _ e₂ st₂ heq
    next pass st₂ heq =>
      simp only at h
      split at h
      · simp at h
      · split at h
        · exact ih q p _ s e st' h
        · rcases hr : runValidatorsLog q.validators pass with ⟨r1, r2⟩
          rw [hr] at h
          simp only at h
          cases r1 with
          | some e₃ => exact ih q p _ s e st' h
          | none => simp at h

/-- When `Confirm` returns a non-nil error, the boolean result is `false`
and the error is one of the three caller-visible kinds. -/
theorem confirm_err_shape (fuel : Nat) (q : Question) (p : Str) (st : PState)
    (b : Bool) (e : GoErr) (st' : PState)
    (h : Question.Confirm fuel q p st = some (b, some e, st')) :
    b = false ∧ (e = .required ∨ e = .cancelled ∨ ∃ m, e = .ioErr m) := by
  rw [Question.Confirm] at h
  split at h
  · exact absurd h (by simp)
  next s e₂ st₂ heq =>
    simp only [Option.some.injEq, Prod.mk.injEq] at h
    obtain ⟨hb, he, -⟩ := h
    refine ⟨hb.symm, ?_⟩
    rw [← he]
    exact (ask_err_shape fuel _ p st s e₂ st₂ heq).2
  next s st₂ heq =>
    exact absurd h (by simp)

/-- Every entry `Ask` adds to the validator-call log is the non-empty
resolved input, provided the optional flag is unset. -/
theorem ask_valCalls_aux (fuel : Nat) :
    ∀ (q : Question) (p : Str) (st : PState) (res : Str × Option GoErr × PState),
      q.optional = false → Question.Ask fuel q p st = some res →
      ∀ x ∈ res.2.2.valCalls, x ∈ st.valCalls ∨ x ≠ [] := by
  induction fuel with
  | zero =>
    intro q p st res hopt h
    rw [Question.Ask] at h
    exact absurd h (by simp)
  | succ n ih =>
    intro q p st res hopt h x hx
    rw [Question.Ask] at h
    split at h
    next e st₂ heq =>
      have hvc : st₂.valCalls = st.valCalls := by
        have := congrArg (fun r => r.2.valCalls) heq
        simpa [readInput_valCalls] using this.symm
      have h' := Option.some.inj h
      subst h'
      rw [hvc] at hx
      exact Or.inl hx
    next input st₂ heq =>
      have hvc : st₂.valCalls = st.valCalls := by
        have := congrArg (fun r => r.2.valCalls) heq
        simpa [readInput_valCalls] using this.symm
      split at h
      · have h' := Option.some.inj h
        subst h'
        rw [hvc] at hx
        exact Or.inl hx
      · split at h
        · rcases ih q p st₂ res hopt h x hx with hmem | hne
          · rw [hvc] at hmem; exact Or.inl hmem
          · exact Or.inr hne
        · rename_i hc1 hc2
          have hinput : input ≠ [] := by
            intro hi
            exact hc2 ⟨hi, by simp [hopt]⟩
          rcases hr : runValidatorsLog q.validators input with ⟨r1, r2⟩
          rw [hr] at h
          simp only at h
          have hcalls : ∀ y ∈ r2, y = input := by
            intro y hy
            have hc := runValidatorsLog_calls q.validators input y
            rw [hr] at hc
            exact hc hy
          cases r1 with
          | some e =>
            rcases ih q p _ res hopt h x hx with hmem | hne
            · simp only [List.mem_append, hvc] at hmem
              rcases hmem with hmem | hmem
              · exact Or.inl hmem
              · exact Or.inr (by rw [hcalls x hmem]; exact hinput)
            · exact Or.inr hne
          | none =>
            have h' := Option.some.inj h
            subst h'
            simp only [List.mem_append, hvc] at hx
            rcases hx with hx | hx
            · exact Or.inl hx
            · exact Or.inr (by rw [hcalls x hx]; exact hinput)

/-- Every entry `Password` adds to the validator-call log is the
non-empty resolved input, provided the optional flag is unset. -/
theorem password_valCalls_aux (fuel : Nat) :
    ∀ (q : Question) (p : Str) (st : PState) (res : Str × Option GoErr × PState),
      q.optional = false → Question.Password fuel q p st = some res →
      ∀ x ∈ res.2.2.valCalls, x ∈ st.valCalls ∨ x ≠ [] := by
  induction fuel with
  | zero =>
    intro q p st res hopt h
    rw [Question.Password] at h
    exact absurd h (by simp)
  | succ n ih =>
    intro q p st res hopt h x hx
    rw [Question.Password] at h
    split at h
    next e st₂ heq =>
      have hvc : st₂.valCalls = st.valCalls := by
        have := congrArg (fun r => r.2.valCalls) heq
        simpa [readInput_valCalls] using this.symm
      have h' := Option.some.inj h
      subst h'
      rw [hvc] at hx
      exact Or.inl hx
    next pass st₂ heq =>
      have hvc : st₂.valCalls = st.valCalls := by
        have := congrArg (fun r => r.2.valCalls) heq
        simpa [readInput_valCalls] using this.symm
      simp only at h
      split at h
      · have h' := Option.some.inj h
        subst h'
        rw [hvc] at hx
        exact Or.inl hx
      · split at h
        · rcases ih q p _ res hopt h x hx with hmem | hne
          · rw [hvc] at hmem; exact Or.inl hmem
          · exact Or.inr hne
        · rename_i hc1 hc2
          have hpass : pass ≠ [] := by
            intro hi
            exact hc2 ⟨hi, by simp [hopt]⟩
          rcases hr : runValidatorsLog q.validators pass with ⟨r1, r2⟩
          rw [hr] at h
          simp only at h
          have hcalls : ∀ y ∈ r2, y = pass := by
            intro y hy
            have hc := runValidatorsLog_calls q.validators pass y
            rw [hr] at hc
            exact hc hy
          cases r1 with
          | some e =>
            rcases ih q p _ res hopt h x hx with hmem | hne
            · simp only [List.mem_append, hvc] at hmem
              rcases hmem with hmem | hmem
              · exact Or.inl hmem
              · exact Or.inr (by rw [hcalls x hmem]; exact hpass)
            · exact Or.inr hne
          | none =>
            have h' := Option.some.inj h
            subst h'
            simp only [List.mem_append, hvc] at hx
            rcases hx with hx | hx
            · exact Or.inl hx
            · exact Or.inr (by rw [hcalls x hx]; exact hpass)

/-- The first failing validator decides the loop's outcome, whatever is
attached after it: if everything before `v` accepts `s` and `v` rejects
it, the loop reports the failure of `v`. -/
theorem runValidatorsLog_first_fail (vs₁ vs₂ : List (Str → Option GoErr))
    (v : Str → Option GoErr) (s : Str) (e : GoErr)
    (h1 : ∀ u ∈ vs₁, u s = none) (h2 : v s = some e) :
    (runValidatorsLog (vs₁ ++ v :: vs₂) s).1 = some e := by
  induction vs₁ with
  | nil =>
    rw [List.nil_append, runValidatorsLog, h2]
  | cons u vs₁ ih =>
    rw [List.cons_append, runValidatorsLog, h1 u (List.mem_cons_self u vs₁)]
    exact ih fun w hw => h1 w (List.mem_cons_of_mem u hw)

/-! ## C3 — when is the default trusted without validation? -/

/-- C3 counterexample: with the stream exhausted, a non-empty default and
an attached validator, the default accepted by the call **was** passed to
the validator (the ghost log records the call `"ab"`); and when the
attached validator rejects everything, the call does not return the
default with a nil error at all — it keeps retrying (still unresolved at
fuel 2). -/
theorem ask_default_eof_validated_cex :
    (Question.Ask 1 { defaultTo := "ab".data, validators := [acceptAllV] } "p".data
        (stateOf "")
        = some ("ab".data, none,
            { input := streamOf "", output := "p ".data, valCalls := ["ab".data] })) ∧
    (Question.Ask 2
        { defaultTo := "ab".data, validators := [fun _ => some (GoErr.custom "nope".data)] }
        "p".data (stateOf "")
        = none) :=
  ⟨rfl, rfl⟩

/-- C3 (amended): a configured default is trusted — returned with nil
error, bypassing every validator — exactly when it is adopted for a
literally-empty read **line**; this holds for `Ask` and `Password`.  When
instead the stream is exhausted, `scanLine` substitutes the default and
it flows through the validator loop like ordinary input: accepted with no
error if they all pass, otherwise the failure message is printed and the
call retries. -/
theorem default_trusted_for_empty_line_only :
    (∀ (fuel : Nat) (q : Question) (p : Str) (st : PState) (rest : Str),
        st.input.data = '\n' :: rest → st.cancelled = false → q.defaultTo ≠ [] →
        Question.Ask (fuel + 1) q p st
          = some (q.defaultTo, none,
              { st with input := { st.input with data := rest },
                        output := st.output ++ p ++ " ".data })) ∧
    (∀ (fuel : Nat) (q : Question) (p : Str) (st : PState) (rest : Str),
        st.input.data = '\n' :: rest → st.cancelled = false → q.defaultTo ≠ [] →
        Question.Password (fuel + 1) q p st
          = some (q.defaultTo, none,
              { st with input := { st.input with data := rest },
                        output := st.output ++ p ++ " ".data ++ "\n".data })) ∧
    (∀ (fuel : Nat) (q : Question) (p : Str) (st : PState),
        st.input.data = [] → st.input.endErr = none → st.cancelled = false →
        q.defaultTo ≠ [] →
        Question.Ask (fuel + 1) q p st
          = (let r := runValidatorsLog q.validators q.defaultTo
             let stp : PState :=
               { st with output := st.output ++ p ++ " ".data,
                         valCalls := st.valCalls ++ r.2 }
             match r.1 with
             | some e =>
               Question.Ask fuel q p
                 { stp with output := stp.output ++ e.message ++ "\n".data }
             | none => some (q.defaultTo, none, stp))) := by
  refine ⟨?_, ?_, ?_⟩
  · intro fuel q p st rest h1 h3 hd
    obtain ⟨⟨d, ee⟩, o, c, vc⟩ := st
    obtain ⟨qd, qo, qv⟩ := q
    simp only at h1 h3 hd
    subst h1 h3
    simp [Question.Ask, Question.readInput, Question.scanLine, splitLine, trimRightCRLF, hd]
  · intro fuel q p st rest h1 h3 hd
    obtain ⟨⟨d, ee⟩, o, c, vc⟩ := st
    obtain ⟨qd, qo, qv⟩ := q
    simp only at h1 h3 hd
    subst h1 h3
    simp [Question.Password, Question.readInput, Question.scanLine, splitLine,
      trimRightCRLF, hd]
  · intro fuel q p st h1 h2 h3 hd
    obtain ⟨⟨d, ee⟩, o, c, vc⟩ := st
    obtain ⟨qd, qo, qv⟩ := q
    simp only at h1 h2 h3 hd
    subst h1 h2 h3
    simp only [Question.Ask, Question.readInput, Question.scanLine, splitLine]
    simp [hd]

/-- C3 witness: a default `"21"` and an empty input line, for both `Ask`
and `Password`. -/
theorem default_trusted_for_empty_line_only_witness :
    (Question.Ask 1 { defaultTo := "21".data } "p".data (stateOf "\n")
        = some ("21".data, none,
            { input := streamOf "", output := "p ".data })) ∧
    (Question.Password 1 { defaultTo := "21".data } "p".data (stateOf "\n")
        = some ("21".data, none,
            { input := streamOf "", output := "p \n".data })) :=
  ⟨default_trusted_for_empty_line_only.1 0 { defaultTo := "21".data } "p".data
      (stateOf "\n") [] rfl rfl (by decide),
   default_trusted_for_empty_line_only.2.1 0 { defaultTo := "21".data } "p".data
      (stateOf "\n") [] rfl rfl (by decide)⟩

/-! ## C4 — are validators ever invoked on empty input? -/

/-- C4 counterexample: with the optional flag set and an empty input line
read, `Ask` falls through to the validator loop with the empty string —
the ghost log records a validator call with argument `""`. -/
theorem ask_optional_empty_validator_cex :
    Question.Ask 1 { optional := true, validators := [acceptAllV] } "p".data (stateOf "\n")
      = some ([], none,
          { input := streamOf "", output := "p ".data, valCalls := [[]] }) :=
  rfl

/-- C4 (amended): validators run only on non-empty resolved input
provided the optional flag is unset — starting from a fresh call log, no
`Ask`, `Password` or `Confirm` execution of a non-optional question ever
hands the empty string to a validator.  (When optional is set and no
default applies, an accepted empty input **is** passed to the
validators.) -/
theorem validators_empty_only_if_optional :
    (∀ (fuel : Nat) (q : Question) (p : Str) (st : PState)
        (res : Str × Option GoErr × PState),
        q.optional = false → st.valCalls = [] →
        Question.Ask fuel q p st = some res → [] ∉ res.2.2.valCalls) ∧
    (∀ (fuel : Nat) (q : Question) (p : Str) (st : PState)
        (res : Str × Option GoErr × PState),
        q.optional = false → st.valCalls = [] →
        Question.Password fuel q p st = some res → [] ∉ res.2.2.valCalls) ∧
    (∀ (fuel : Nat) (q : Question) (p : Str) (st : PState)
        (res : Bool × Option GoErr × PState),
        q.optional = false → st.valCalls = [] →
        Question.Confirm fuel q p st = some res → [] ∉ res.2.2.valCalls) := by
  refine ⟨?_, ?_, ?_⟩
  · intro fuel q p st res hopt hvc h hmem
    rcases ask_valCalls_aux fuel q p st res hopt h [] hmem with h1 | h1
    · rw [hvc] at h1; simp at h1
    · exact h1 rfl
  · intro fuel q p st res hopt hvc h hmem
    rcases password_valCalls_aux fuel q p st res hopt h [] hmem with h1 | h1
    · rw [hvc] at h1; simp at h1
    · exact h1 rfl
  · intro fuel q p st res hopt hvc h hmem
    rw [Question.Confirm] at h
    split at h
    · exact absurd h (by simp)
    next s e st₂ heq =>
      have h' := Option.some.inj h
      subst h'
      rcases ask_valCalls_aux fuel q.confirmAppend p st (s, some e, st₂) hopt heq
          [] hmem with h1 | h1
      · rw [hvc] at h1; simp at h1
      · exact h1 rfl
    next s st₂ heq =>
      have h' := Option.some.inj h
      subst h'
      rcases ask_valCalls_aux fuel q.confirmAppend p st (s, none, st₂) hopt heq
          [] hmem with h1 | h1
      · rw [hvc] at h1; simp at h1
      · exact h1 rfl

/-- C4 witness: concrete non-optional runs of `Ask`, `Password` and
`Confirm` whose logs the amended invariant certifies free of `""`. -/
theorem validators_empty_only_if_optional_witness :
    ([] : Str) ∉ [("Amy".data : Str)] ∧
    ([] : Str) ∉ [("Amy".data : Str)] ∧
    ([] : Str) ∉ [("yes".data : Str)] :=
  ⟨validators_empty_only_if_optional.1 1 { validators := [tooShortV] } "p".data
      (stateOf "Amy\n")
      ("Amy".data, none,
        { input := streamOf "", output := "p ".data, valCalls := ["Amy".data] })
      rfl rfl rfl,
   validators_empty_only_if_optional.2.1 1 { validators := [tooShortV] } "p".data
      (stateOf "Amy\n")
      ("Amy".data, none,
        { input := streamOf "", output := "p \n".data, valCalls := ["Amy".data] })
      rfl rfl rfl,
   validators_empty_only_if_optional.2.2 1 {} "p".data (stateOf "yes\n")
      (true, none,
        { input := streamOf "", output := "p ".data, valCalls := ["yes".data] })
      rfl rfl rfl⟩

/-! ## C5 — validator order, short-circuit, error output, re-prompt -/

/-- C5: validators run in attachment order and the first failure
short-circuits the rest (whatever is attached after it), its message plus
a newline is written to the output before the prompt is re-issued, and
acceptance requires every validator to pass.  Concretely, on the stream
`"Am\nAmy\n"` with the shorter-than-3 validator, `Ask` returns
`("Amy", nil)` and the total output is exactly
`"What is your name? 'Am' is too short\nWhat is your name? "`. -/
theorem validator_order_shortcircuit_scenario :
    (Question.Ask 2 { validators := [tooShortV] } "What is your name?".data
        (stateOf "Am\nAmy\n")
        = some ("Amy".data, none,
            { input := streamOf "",
              output := "What is your name? 'Am' is too short\nWhat is your name? ".data,
              valCalls := ["Am".data, "Amy".data] })) ∧
    (∀ (vs₁ vs₂ : List (Str → Option GoErr)) (v : Str → Option GoErr) (s : Str)
        (e : GoErr),
        (∀ u ∈ vs₁, u s = none) → v s = some e →
        (runValidatorsLog (vs₁ ++ v :: vs₂) s).1 = some e) ∧
    (∀ (vs : List (Str → Option GoErr)) (s : Str),
        (runValidatorsLog vs s).1 = none ↔ ∀ v ∈ vs, v s = none) :=
  ⟨rfl, runValidatorsLog_first_fail, runValidatorsLog_none_iff⟩

/-- C5 witness: the short-circuit clause applied with a passing validator
ahead of the failing length check on input `"Am"`. -/
theorem validator_order_shortcircuit_scenario_witness :
    (runValidatorsLog ([acceptAllV] ++ tooShortV :: [acceptAllV]) "Am".data).1
      = some (GoErr.custom ("'".data ++ "Am".data ++ "' is too short".data)) :=
  validator_order_shortcircuit_scenario.2.1 [acceptAllV] [acceptAllV] tooShortV
    "Am".data (GoErr.custom ("'".data ++ "Am".data ++ "' is too short".data))
    (by intro u hu; rw [List.mem_singleton] at hu; subst hu; rfl) rfl

/-! ## C6 — the confirm validator and the yes/no mapping -/

/-- C6: the validator `Confirm` attaches accepts exactly the
case-insensitive tokens `y`, `yes`, `n`, `no`, rejecting anything else
with a message naming the offending value; `Confirm` delegates to the
`Ask` resolution algorithm on the question with that validator appended;
and the returned boolean is `true` iff the accepted string, lower-cased,
is `y`, `yes` or `true` (`false` for anything else, in particular for the
only other accepted tokens `n`/`no`). -/
theorem confirm_tokens_and_isYes :
    (∀ s : Str, confirmValidator s = none ↔
        (toLowerStr s = "y".data ∨ toLowerStr s = "yes".data ∨
         toLowerStr s = "n".data ∨ toLowerStr s = "no".data)) ∧
    (∀ s : Str, confirmValidator s ≠ none →
        confirmValidator s = some (GoErr.custom
          ("invalid value \"".data ++ s ++ "\", must enter yes or no".data))) ∧
    (∀ (fuel : Nat) (q : Question) (p : Str) (st : PState) (input : Str) (st' : PState),
        (q.confirmAppend).Ask fuel p st = some (input, none, st') →
        Question.Confirm fuel q p st = some (isYes input, none, st')) ∧
    (∀ s : Str, isYes s = true ↔
        (toLowerStr s = "y".data ∨ toLowerStr s = "yes".data ∨
         toLowerStr s = "true".data)) := by
  refine ⟨?_, ?_, ?_, ?_⟩
  · intro s
    simp only [confirmValidator]
    split
    · rename_i h1
      simp only [true_iff]
      tauto
    · split
      · rename_i h1 h2
        simp only [true_iff]
        tauto
      · rename_i h1 h2
        simp only [reduceCtorEq, false_iff]
        tauto
  · intro s h
    by_cases h1 : toLowerStr s = "y".data ∨ toLowerStr s = "yes".data
    · exact absurd (by simp [confirmValidator, h1]) h
    · by_cases h2 : toLowerStr s = "n".data ∨ toLowerStr s = "no".data
      · exact absurd (by simp [confirmValidator, h1, h2]) h
      · simp [confirmValidator, h1, h2]
  · intro fuel q p st input st' h
    rw [Question.Confirm, h]
  · intro s
    simp [isYes]

/-- C6 witness: accepted and rejected tokens, the rejection message for
`"maybe"`, a full `Confirm` run accepting `"no"`, and `isYes` on
`"TRUE"`. -/
theorem confirm_tokens_and_isYes_witness :
    confirmValidator "YES".data = none ∧
    (confirmValidator "maybe".data
      = some (GoErr.custom
          ("invalid value \"".data ++ "maybe".data ++ "\", must enter yes or no".data))) ∧
    (Question.Confirm 1 {} "p".data (stateOf "no\n")
      = some (isYes "no".data, none,
          { input := streamOf "", output := "p ".data, valCalls := ["no".data] })) ∧
    isYes "TRUE".data = true :=
  ⟨(confirm_tokens_and_isYes.1 "YES".data).mpr (Or.inr (Or.inl (by decide))),
   confirm_tokens_and_isYes.2.1 "maybe".data (by decide),
   confirm_tokens_and_isYes.2.2.1 1 {} "p".data (stateOf "no\n") "no".data
     { input := streamOf "", output := "p ".data, valCalls := ["no".data] } rfl,
   (confirm_tokens_and_isYes.2.2.2 "TRUE".data).mpr (Or.inr (Or.inr (by decide)))⟩

/-! ## C7 — cancellation observed before the read -/

/-- C7: when the cancellation token is already set before the read
begins, `Ask` and `Password` return at once with the empty string and
the cancellation error; the input stream is untouched (no read is
started) and the only output written is the prompt text itself. -/
theorem cancelled_before_read_immediate (fuel : Nat) (q : Question) (p : Str)
    (st : PState) (h : st.cancelled = true) :
    (Question.Ask (fuel + 1) q p st
        = some ([], some GoErr.cancelled,
            { st with output := st.output ++ p ++ " ".data })) ∧
    (Question.Password (fuel + 1) q p st
        = some ([], some GoErr.cancelled,
            { st with output := st.output ++ p ++ " ".data })) := by
  obtain ⟨inp, o, c, vc⟩ := st
  simp only at h
  subst h
  exact ⟨rfl, rfl⟩

/-- C7 witness: a pre-cancelled token over an untouched `"Mark\n"`
stream. -/
theorem cancelled_before_read_immediate_witness :
    (Question.Ask 1 {} "p".data { input := streamOf "Mark\n", cancelled := true }
        = some ([], some GoErr.cancelled,
            { input := streamOf "Mark\n", output := "p ".data, cancelled := true })) ∧
    (Question.Password 1 {} "p".data { input := streamOf "Mark\n", cancelled := true }
        = some ([], some GoErr.cancelled,
            { input := streamOf "Mark\n", output := "p ".data, cancelled := true })) :=
  cancelled_before_read_immediate 0 {} "p".data
    { input := streamOf "Mark\n", cancelled := true } rfl

/-! ## C8 — the closed error taxonomy -/

/-- C8: every non-nil error an `Ask`, `Password` or `Confirm` call
returns is one of exactly three kinds — `ErrRequired`, the cancellation
error, or an opaque stream I/O error.  A validator's failure (a `custom`
error) is never among them: it is printed to the output sink and the
prompt re-issued instead. -/
theorem caller_error_taxonomy :
    (∀ (fuel : Nat) (q : Question) (p : Str) (st : PState) (s : Str) (e : GoErr)
        (st' : PState),
        Question.Ask fuel q p st = some (s, some e, st') → e.inErrorTaxonomy) ∧
    (∀ (fuel : Nat) (q : Question) (p : Str) (st : PState) (s : Str) (e : GoErr)
        (st' : PState),
        Question.Password fuel q p st = some (s, some e, st') → e.inErrorTaxonomy) ∧
    (∀ (fuel : Nat) (q : Question) (p : Str) (st : PState) (b : Bool) (e : GoErr)
        (st' : PState),
        Question.Confirm fuel q p st = some (b, some e, st') → e.inErrorTaxonomy) :=
  ⟨fun fuel q p st s e st' h => (ask_err_shape fuel q p st s e st' h).2,
   fun fuel q p st s e st' h => (password_err_shape fuel q p st s e st' h).2,
   fun fuel q p st b e st' h => (confirm_err_shape fuel q p st b e st' h).2⟩

/-- C8 witness: the error of the exhausted-stream run is in the
taxonomy. -/
theorem caller_error_taxonomy_witness : GoErr.inErrorTaxonomy GoErr.required :=
  caller_error_taxonomy.1 1 {} "p".data (stateOf "") [] GoErr.required
    { input := streamOf "", output := "p ".data } rfl

/-! ## C9 — zero values accompany every error -/

/-- C9: whenever `Ask` or `Password` returns a non-nil error the string
result is exactly the empty string, and whenever `Confirm` returns a
non-nil error its boolean result is `false` — no partial or
previously-read value is ever handed back alongside an error. -/
theorem error_returns_zero_value :
    (∀ (fuel : Nat) (q : Question) (p : Str) (st : PState) (s : Str) (e : GoErr)
        (st' : PState),
        Question.Ask fuel q p st = some (s, some e, st') → s = []) ∧
    (∀ (fuel : Nat) (q : Question) (p : Str) (st : PState) (s : Str) (e : GoErr)
        (st' : PState),
        Question.Password fuel q p st = some (s, some e, st') → s = []) ∧
    (∀ (fuel : Nat) (q : Question) (p : Str) (st : PState) (b : Bool) (e : GoErr)
        (st' : PState),
        Question.Confirm fuel q p st = some (b, some e, st') → b = false) :=
  ⟨fun fuel q p st s e st' h => (ask_err_shape fuel q p st s e st' h).1,
   fun fuel q p st s e st' h => (password_err_shape fuel q p st s e st' h).1,
   fun fuel q p st b e st' h => (confirm_err_shape fuel q p st b e st' h).1⟩

/-- C9 witness: the exhausted-stream `Ask` and `Confirm` runs, whose
results the theorem pins to the zero values. -/
theorem error_returns_zero_value_witness : ([] : Str) = [] ∧ false = false :=
  ⟨error_returns_zero_value.1 1 {} "p".data (stateOf "") [] GoErr.required
      { input := streamOf "", output := "p ".data } rfl,
   error_returns_zero_value.2.2 1 {} "p".data (stateOf "") false GoErr.required
      { input := streamOf "", output := "p ".data } rfl⟩

/-! ## C10 — Confirm appends its validator to the receiver -/

/-- C10: `Confirm` extends the question it is called on by appending the
yes/no validator after every previously attached validator (so an earlier
validator's failure takes precedence in the loop), and the append
persists: applying the `Confirm` mutation twice leaves two copies of the
yes/no validator attached. -/
theorem confirm_appends_validator_persistently :
    (∀ q : Question,
        (q.confirmAppend).validators = q.validators ++ [confirmValidator]) ∧
    (∀ (q : Question) (s : Str) (e : GoErr),
        (runValidatorsLog q.validators s).1 = some e →
        (runValidatorsLog (q.confirmAppend).validators s).1 = some e) ∧
    (∀ q : Question,
        ((q.confirmAppend).confirmAppend).validators
          = q.validators ++ [confirmValidator, confirmValidator]) := by
  refine ⟨fun q => rfl, ?_, ?_⟩
  · intro q s e h
    exact runValidatorsLog_append_of_fail q.validators [confirmValidator] s e h
  · intro q
    simp [Question.confirmAppend]

/-- C10 witness: a previously attached length validator fails on `"Am"`
before the appended yes/no validator is consulted. -/
theorem confirm_appends_validator_persistently_witness :
    (runValidatorsLog (({ validators := [tooShortV] } : Question).confirmAppend).validators
        "Am".data).1
      = some (GoErr.custom ("'".data ++ "Am".data ++ "' is too short".data)) :=
  confirm_appends_validator_persistently.2.1 { validators := [tooShortV] } "Am".data
    (GoErr.custom ("'".data ++ "Am".data ++ "' is too short".data)) rfl
